import Mathlib

/-!
Verification of the pack-it columnar-builder core.

Shallow embedding of the Rust sources: `table.rs` (Kind, VarArray, Table),
`mem.rs` (the MemUsage protocol), `packer.rs` (Packer and its flush policy),
`repack.rs` (the transform driver) and the multi-sink Writer that `packer.rs`
calls.  Mutable arrow2 builders are modelled as a `Builder` inductive carrying
the validity bitmap, the value buffer, and (for strings) the offsets buffer.
Fallible Rust methods return `Except Err`; methods that can panic (index out
of bounds, `unimplemented!`, failed `expect`) return `Option` with `none`
standing for the panic.
-/

set_option linter.unusedVariables false
set_option maxRecDepth 8000

/-- Arrow time unit, as in arrow2 `TimeUnit`. -/
inductive TimeUnit where
  | Second
  | Millisecond
  | Microsecond
  | Nanosecond
deriving DecidableEq, Repr

/-- The subset of arrow2 `DataType` relevant to this crate: the eight mapped
types plus representatives of unmapped external types. -/
inductive DataType where
  | Boolean
  | UInt8
  | UInt16
  | Int32
  | Int64
  | Float64
  | Utf8
  | LargeUtf8
  | FixedSizeBinary (size : Nat)
  | Timestamp (unit : TimeUnit) (tz : Option String)
deriving DecidableEq, Repr

/-- The closed set of column kinds, from `table.rs`. -/
inductive Kind where
  | Bool
  | Uuid
  | U8
  | I32
  | I64
  | F64
  | String
  | TimestampSecsZ
deriving DecidableEq, Repr

/-- Parquet encodings used by `default_encoding` in `table.rs`. -/
inductive Encoding where
  | Plain
  | ByteStreamSplit
deriving DecidableEq, Repr

/-- Error values, one constructor per distinct failure site in the sources.
The taxonomy names follow the spec: `typeMismatch` for the push and copy
downcast failures, `schemaViolation` for the length check in
`check_consistent`, `externalTypeUnsupported` for the `from_arrow` bail,
`userAbort` for the `ErrorOut` action, `fieldMissing` for a named input
column absent from the source schema, `copyUnsupported` for the unhandled
copy dispatch, `pushLength` for a fixed-size-binary push of the wrong
length. -/
inductive Err where
  | typeMismatch (message : String)
  | schemaViolation (col : Nat) (expected : Nat) (got : Nat)
  | externalTypeUnsupported (dt : DataType)
  | userAbort (column : String)
  | fieldMissing (name : String)
  | copyUnsupported (dt : DataType) (name : String)
  | pushLength (got : Nat) (size : Nat)
deriving DecidableEq, Repr

deriving instance DecidableEq for Except

/-- `Kind::to_arrow` from `table.rs`. -/
def Kind.to_arrow : Kind → DataType
  | .Bool => .Boolean
  | .U8 => .UInt8
  | .I32 => .Int32
  | .I64 => .Int64
  | .F64 => .Float64
  | .String => .Utf8
  | .Uuid => .FixedSizeBinary 16
  | .TimestampSecsZ => .Timestamp .Second none

/-- `Kind::from_arrow` from `table.rs`.  Note the match has no
`FixedSizeBinary` arm: it falls to the catch-all bail. -/
def Kind.from_arrow : DataType → Except Err Kind
  | .Utf8 => .ok .String
  | .Boolean => .ok .Bool
  | .Int64 => .ok .I64
  | .Int32 => .ok .I32
  | .UInt8 => .ok .U8
  | .Float64 => .ok .F64
  | .Timestamp .Second none => .ok .TimestampSecsZ
  | other => .error (.externalTypeUnsupported other)

/-- `Kind::default_encoding` from `table.rs`. -/
def Kind.default_encoding : Kind → Encoding
  | .F64 => .ByteStreamSplit
  | .Bool | .U8 => .Plain
  | .Uuid => .Plain
  | .TimestampSecsZ | .I64 | .I32 => .Plain
  | .String => .Plain

/-- The native element types whose `MutablePrimitiveArray<T>` builders occur
in this crate (the downcast chain in `VarArray::mem_usage` also tests i16). -/
inductive PrimTy where
  | u8
  | i16
  | i32
  | i64
  | f64
deriving DecidableEq, Repr

/-- `std::mem::size_of` for each primitive element type. -/
def PrimTy.byteSize : PrimTy → Nat
  | .u8 => 1
  | .i16 => 2
  | .i32 => 4
  | .i64 => 8
  | .f64 => 8

/-- Rust type name, used in the `push_primitive` error message. -/
def PrimTy.typeName : PrimTy → String
  | .u8 => "u8"
  | .i16 => "i16"
  | .i32 => "i32"
  | .i64 => "i64"
  | .f64 => "f64"

/-- The concrete mutable builders behind a `VarArray` (`Box<dyn MutableArray>`):
`MutableBooleanArray` (values are a bitmap), `MutablePrimitiveArray<T>`
(f64 payloads are carried as opaque `Int` codes; only their count and width
matter here), `MutableUtf8Array<i32>` (offsets start at `[0]`, values are the
utf8 byte buffer), and `MutableFixedSizeBinaryArray`.  `validity = none`
models the lazily allocated null bitmap: it stays absent until the first
null is pushed. -/
inductive Builder where
  | boolB (validity : Option (List Bool)) (values : List Bool)
  | primB (ty : PrimTy) (validity : Option (List Bool)) (values : List Int)
  | utf8B (validity : Option (List Bool)) (offsets : List Nat) (values : List Nat)
  | fsbB (size : Nat) (validity : Option (List Bool)) (values : List Nat)
deriving DecidableEq, Repr

instance : Inhabited Builder := ⟨.boolB none []⟩

/-- `MutableArray::len` for each concrete builder. -/
def Builder.len : Builder → Nat
  | .boolB _ values => values.length
  | .primB _ _ values => values.length
  | .utf8B _ offsets _ => offsets.length - 1
  | .fsbB size _ values => values.length / size

/-- Shape tests mirroring `downcast_mut` on the boxed builder. -/
def Builder.isUtf8 : Builder → Bool
  | .utf8B _ _ _ => true
  | _ => false

def Builder.isBool : Builder → Bool
  | .boolB _ _ => true
  | _ => false

def Builder.isPrim (ty : PrimTy) : Builder → Bool
  | .primB ty2 _ _ => ty2 = ty
  | _ => false

def Builder.isFsb : Builder → Bool
  | .fsbB _ _ _ => true
  | _ => false

/-- Appending one slot to a lazily-allocated validity bitmap: pushing a valid
entry onto an absent bitmap keeps it absent; pushing the first null
materialises the bitmap as all-valid history plus the new null. -/
def pushValidity (validity : Option (List Bool)) (rowsBefore : Nat) (valid : Bool) :
    Option (List Bool) :=
  match validity with
  | some l => some (l ++ [valid])
  | none => if valid then none else some (List.replicate rowsBefore true ++ [false])

/-- `MutableArray::push_null` on each concrete builder. -/
def Builder.push_null : Builder → Builder
  | .boolB validity values =>
      .boolB (pushValidity validity values.length false) (values ++ [false])
  | .primB ty validity values =>
      .primB ty (pushValidity validity values.length false) (values ++ [0])
  | .utf8B validity offsets values =>
      .utf8B (pushValidity validity (offsets.length - 1) false)
        (offsets ++ [offsets.getLastD 0]) values
  | .fsbB size validity values =>
      .fsbB size (pushValidity validity (values.length / size) false)
        (values ++ List.replicate size 0)

/-- Utf8 bytes of a Lean string, for `push_str` payloads. -/
def stringBytes (s : String) : List Nat :=
  s.toUTF8.toList.map (fun b => b.toNat)

/-- Push an optional string (as its byte slice) onto a utf8 builder. -/
def utf8Push (validity : Option (List Bool)) (offsets : List Nat) (values : List Nat)
    (val : Option (List Nat)) : Builder :=
  match val with
  | none => (Builder.utf8B validity offsets values).push_null
  | some s =>
      .utf8B (pushValidity validity (offsets.length - 1) true)
        (offsets ++ [offsets.getLastD 0 + s.length]) (values ++ s)

/-- Push an optional bool onto a boolean builder. -/
def boolPush (validity : Option (List Bool)) (values : List Bool) (val : Option Bool) :
    Builder :=
  match val with
  | none => (Builder.boolB validity values).push_null
  | some v => .boolB (pushValidity validity values.length true) (values ++ [v])

/-- Push an optional primitive onto a primitive builder. -/
def primPush (ty : PrimTy) (validity : Option (List Bool)) (values : List Int)
    (val : Option Int) : Builder :=
  match val with
  | none => (Builder.primB ty validity values).push_null
  | some v => .primB ty (pushValidity validity values.length true) (values ++ [v])

/-- `MutableBitmap::mem_usage` from `mem.rs`: `len / 8` (integer division). -/
def bitmapMemUsage (bits : List Bool) : Nat := bits.length / 8

/-- `Option<&MutableBitmap>::mem_usage` from `mem.rs`. -/
def validityMemUsage : Option (List Bool) → Nat
  | none => 0
  | some v => bitmapMemUsage v

/-- The per-concrete-array `MemUsage` impls from `mem.rs`:
fixed-size binary counts only its value buffer; utf8 counts validity,
values and offsets (i32 offsets, 4 bytes each); primitives count validity
and values; booleans count validity and their value bitmap. -/
def Builder.mem_usage_typed : Builder → Nat
  | .fsbB _ _ values => values.length
  | .utf8B validity offsets values =>
      validityMemUsage validity + values.length + offsets.length * 4
  | .primB ty validity values =>
      validityMemUsage validity + values.length * ty.byteSize
  | .boolB validity values => validityMemUsage validity + bitmapMemUsage values

/-- `VarArray::mem_usage` from `table.rs`: a downcast chain over utf8, i64,
i32, i16, u8 and boolean builders; everything else (which in this crate means
the f64 and fixed-size-binary builders) falls to the
`debug_assert!(false)` fallback returning `len * 16`. -/
def Builder.mem_usage : Builder → Nat
  | .utf8B validity offsets values =>
      (Builder.utf8B validity offsets values).mem_usage_typed
  | .primB .i64 validity values => (Builder.primB .i64 validity values).mem_usage_typed
  | .primB .i32 validity values => (Builder.primB .i32 validity values).mem_usage_typed
  | .primB .i16 validity values => (Builder.primB .i16 validity values).mem_usage_typed
  | .primB .u8 validity values => (Builder.primB .u8 validity values).mem_usage_typed
  | .boolB validity values => (Builder.boolB validity values).mem_usage_typed
  | b => b.len * 16

/-- True when `VarArray::mem_usage` takes the unsupported-type fallback whose
`debug_assert!(false, "unsupported type")` fires in debug builds. -/
def Builder.mem_usage_fallback : Builder → Bool
  | .fsbB _ _ _ => true
  | .primB .f64 _ _ => true
  | _ => false

/-- `Kind::array_with_capacity` from `table.rs`: the fresh builder for each
kind (capacity only pre-allocates; it does not affect the logical state). -/
def Kind.array_with_capacity (k : Kind) (capacity : Nat) : Builder :=
  match k with
  | .Bool => .boolB none []
  | .U8 => .primB .u8 none []
  | .I32 => .primB .i32 none []
  | .I64 => .primB .i64 none []
  | .F64 => .primB .f64 none []
  | .String => .utf8B none [0] []
  | .Uuid => .fsbB 16 none []
  | .TimestampSecsZ => .primB .i64 none []

/-- `Table` from `table.rs`. -/
structure Table where
  schema : List Kind
  builders : List Builder
  cap : Nat
  mem_used : Nat
deriving DecidableEq, Repr

/-- `make_builders` from `table.rs`. -/
def make_builders (schema : List Kind) (cap : Nat) : List Builder :=
  schema.map (fun kind => kind.array_with_capacity cap)

/-- `Table::with_capacity`. -/
def Table.with_capacity (schema : List Kind) (cap : Nat) : Table :=
  { schema := schema, builders := make_builders schema cap, cap := cap, mem_used := 0 }

/-- The loop body of `Table::check_consistent`: compare each remaining column
length (columns numbered from 1) against the expectation, failing at the
first mismatch. -/
def checkCols (expectation : Nat) : Nat → List Builder → Except Err Unit
  | _, [] => .ok ()
  | i, b :: rest =>
      if b.len = expectation then checkCols expectation (i + 1) rest
      else .error (.schemaViolation i expectation b.len)

/-- `Table::check_consistent`: reads `builders[0]` unconditionally, so an
empty builder list is an index panic (`none`). -/
def Table.check_consistent (t : Table) : Option (Except Err Unit) :=
  match t.builders with
  | [] => none
  | b0 :: rest => some (checkCols b0.len 1 rest)

/-- `Table::mem_estimate`. -/
def Table.mem_estimate (t : Table) : Nat := t.mem_used

/-- `Table::rows`: reads `builders[0]` unconditionally. -/
def Table.rows (t : Table) : Option Nat :=
  match t.builders with
  | [] => none
  | b0 :: _ => some b0.len

/-- `Table::finish_bulk_push`: consistency check, then the memory estimate is
recomputed as the sum of every column builder `mem_usage`. -/
def Table.finish_bulk_push (t : Table) : Option (Except Err Table) :=
  match t.check_consistent with
  | none => none
  | some (.error e) => some (.error e)
  | some (.ok ()) =>
      some (.ok { t with mem_used := (t.builders.map Builder.mem_usage).sum })

/-- `Table::get_many`: filter the enumerated builders by requested index. -/
def Table.get_many (t : Table) (items : List Nat) : List Builder :=
  (t.builders.enum.filter (fun p => items.contains p.1)).map (fun p => p.2)

/-- `Table::push_null`. -/
def Table.push_null (t : Table) (i : Nat) : Option (Table × Except Err Unit) :=
  if h : i < t.builders.length then
    some ({ t with
              mem_used := t.mem_used + 1,
              builders := t.builders.set i (t.builders.get ⟨i, h⟩).push_null }, .ok ())
  else none

/-- `Table::push_str`. -/
def Table.push_str (t : Table) (i : Nat) (val : Option String) :
    Option (Table × Except Err Unit) :=
  if h : i < t.builders.length then
    match t.builders.get ⟨i, h⟩ with
    | .utf8B validity offsets values =>
        some ({ t with
                mem_used := t.mem_used + (val.map (fun v => v.utf8ByteSize)).getD 0 + 4,
                builders := t.builders.set i
                  (utf8Push validity offsets values (val.map stringBytes)) }, .ok ())
    | _ => some (t, .error (.typeMismatch "cannot push a string to this column"))
  else none

/-- `Table::push_bool`. -/
def Table.push_bool (t : Table) (i : Nat) (val : Option Bool) :
    Option (Table × Except Err Unit) :=
  if h : i < t.builders.length then
    match t.builders.get ⟨i, h⟩ with
    | .boolB validity values =>
        some ({ t with
                  mem_used := t.mem_used + 1,
                  builders := t.builders.set i (boolPush validity values val) },
          .ok ())
    | _ => some (t, .error (.typeMismatch "cannot push a bool to this column"))
  else none

/-- `Table::push_fsb`.  A `none` value takes the early-return branch: it
pushes a null through the type-erased builder and reports success without
ever downcasting, on a column of any kind. -/
def Table.push_fsb (t : Table) (i : Nat) (val : Option (List Nat)) :
    Option (Table × Except Err Unit) :=
  if h : i < t.builders.length then
    match val with
    | none =>
        some ({ t with
                builders := t.builders.set i (t.builders.get ⟨i, h⟩).push_null },
          .ok ())
    | some bytes =>
        match t.builders.get ⟨i, h⟩ with
        | .fsbB size validity values =>
            if bytes.length = size then
              some ({ t with
                        mem_used := t.mem_used + size,
                        builders := t.builders.set i
                          (.fsbB size (pushValidity validity (values.length / size) true)
                            (values ++ bytes)) }, .ok ())
            else
              some ({ t with mem_used := t.mem_used + size },
                .error (.pushLength bytes.length size))
        | _ => some (t, .error (.typeMismatch "cannot push a uuid to this column"))
  else none

/-- `Table::push_primitive::<T>`. -/
def Table.push_primitive (t : Table) (ty : PrimTy) (i : Nat) (val : Option Int) :
    Option (Table × Except Err Unit) :=
  if h : i < t.builders.length then
    match t.builders.get ⟨i, h⟩ with
    | .primB ty2 validity values =>
        if ty2 = ty then
          some ({ t with
                    mem_used := t.mem_used + ty.byteSize,
                    builders := t.builders.set i (primPush ty validity values val) },
            .ok ())
        else
          some (t, .error (.typeMismatch
            ("cannot push an " ++ ty.typeName ++ " to this column")))
    | _ =>
        some (t, .error (.typeMismatch
          ("cannot push an " ++ ty.typeName ++ " to this column")))
  else none

/-- `Table::take_batch`: detach every builder as the batch, reinstall fresh
builders sized to the original capacity hint, zero the memory estimate. -/
def Table.take_batch (t : Table) : List Builder × Table :=
  (t.builders, { t with builders := make_builders t.schema t.cap, mem_used := 0 })

/-- `TableField` from `table.rs`. -/
structure TableField where
  name : String
  kind : Kind
  nullable : Bool
  encoding : Encoding
deriving DecidableEq, Repr

/-- `TableField::new`. -/
def TableField.new (name : String) (kind : Kind) (nullable : Bool) : TableField :=
  { name := name, kind := kind, nullable := nullable,
    encoding := kind.default_encoding }

/-- A batch: the detached column arrays of one row group. -/
abbrev Batch := List Builder

/-- `Packer` from `packer.rs`.  Its writer is represented by the schema the
writer holds (used by `find_field`); batches submitted to the writer are
returned by the operations below rather than stored. -/
structure Packer where
  fields : List TableField
  table : Table
deriving DecidableEq, Repr

/-- `Packer::new`: builds the writer over the single sink and a table over
the kinds of the schema, with capacity hint 0. -/
def Packer.new (schema : List TableField) : Packer :=
  { fields := schema,
    table := Table.with_capacity (schema.map (fun f => f.kind)) 0 }

/-- `Writer::find_field`, reached through `Packer::find_field`. -/
def Packer.find_field (p : Packer) (name : String) : Option (Nat × TableField) :=
  p.fields.enum.find? (fun q => q.2.name == name)

/-- `Packer::flush`: no-op at zero rows; otherwise `finish_bulk_push`, then
`take_batch`, then submit the batch to the writer.  The submitted batch, when
any, is the second component of the result. -/
def Packer.flush (p : Packer) : Option (Except Err (Packer × Option Batch)) :=
  match p.table.rows with
  | none => none
  | some rows =>
      if rows = 0 then some (.ok (p, none))
      else
        match p.table.finish_bulk_push with
        | none => none
        | some (.error e) => some (.error e)
        | some (.ok t) =>
            let (batch, t2) := t.take_batch
            some (.ok ({ p with table := t2 }, some batch))

/-- `Packer::consider_flushing`: consistency check, then flush when the
memory estimate exceeds 512 MiB or the row count exceeds 100000. -/
def Packer.consider_flushing (p : Packer) : Option (Except Err (Packer × Option Batch)) :=
  match p.table.check_consistent with
  | none => none
  | some (.error e) => some (.error e)
  | some (.ok ()) =>
      match p.table.rows with
      | none => none
      | some rows =>
          if 512 * 1024 * 1024 < p.table.mem_estimate ∨ 100000 < rows then p.flush
          else some (.ok (p, none))

/-- `Packer::finish`: flush the remainder, then finish the writer (which
closes the channel and joins; modelled as returning the packer unchanged). -/
def Packer.finish (p : Packer) : Option (Except Err (Packer × Option Batch)) :=
  p.flush

/-- Modelled from the spec: the multi-sink `Writer::new(sinks, schema)` that
`packer.rs` calls (`Writer::new(vec![inner], schema)`, `finish()?.pop()`) is
not among the sources under src; `src/write.rs` holds only a single-sink
variant.  Per the spec, `new` spawns one encoder task per output sink, all
consuming from one shared bounded channel whose capacity equals the number
of sinks; a blocking `submit_batch` can complete only while the channel has
a free slot, and a consuming task frees one slot per batch taken. -/
structure WriterState where
  numTasks : Nat
  capacity : Nat
  queued : Nat
deriving DecidableEq, Repr

/-- Modelled from the spec: `Writer::new(sinks, schema)` for `numSinks`
output sinks. -/
def WriterState.new (numSinks : Nat) : WriterState :=
  { numTasks := numSinks, capacity := numSinks, queued := 0 }

/-- Modelled from the spec: whether a blocking send can complete now. -/
def WriterState.canSubmit (w : WriterState) : Bool := w.queued < w.capacity

/-- Modelled from the spec: `submit_batch` completes only when a channel slot
is free; `none` means the producer stays blocked. -/
def WriterState.submit_batch (w : WriterState) : Option WriterState :=
  if w.queued < w.capacity then some { w with queued := w.queued + 1 } else none

/-- Modelled from the spec: an encoder task draining one batch off the
channel. -/
def WriterState.consume (w : WriterState) : Option WriterState :=
  if 0 < w.queued then some { w with queued := w.queued - 1 } else none

/-- The byte slices of a utf8 array, one per row, recovered from offsets and
the value buffer. -/
def utf8Slices (offsets : List Nat) (values : List Nat) : List (List Nat) :=
  (offsets.zip offsets.tail).map (fun p => (values.drop p.1).take (p.2 - p.1))

/-- Pair raw row values with the validity bitmap, yielding the per-row
`Option` view an arrow array iterator produces. -/
def applyValidity {α : Type} (validity : Option (List Bool)) (vals : List α) :
    List (Option α) :=
  match validity with
  | none => vals.map some
  | some bits => (vals.zip bits).map (fun p => if p.2 then some p.1 else none)

/-- Push one optional string row (as bytes) onto a builder; identity on
builders of any other shape (the copy dispatch checks the shape first). -/
def Builder.pushStrRow : Builder → Option (List Nat) → Builder
  | .utf8B validity offsets values, r => utf8Push validity offsets values r
  | b, _ => b

/-- Push one optional primitive row onto a builder. -/
def Builder.pushPrimRow : Builder → Option Int → Builder
  | .primB ty validity values, r => primPush ty validity values r
  | b, _ => b

/-- Push one optional bool row onto a builder. -/
def Builder.pushBoolRow : Builder → Option Bool → Builder
  | .boolB validity values, r => boolPush validity values r
  | b, _ => b

/-- The requested indices that are in range, in ascending schema order:
`get_many` yields exactly the builders at these positions. -/
def selectedIndices (n : Nat) (items : List Nat) : List Nat :=
  (List.range n).filter (fun i => items.contains i)

/-- Write the new contents of the selected views back at their (ascending)
indices, modelling the in-place mutation a `Split` transform performs through
its mutable views. -/
def updateAt (builders : List Builder) : List Nat → List Builder → List Builder
  | [], _ => builders
  | _, [] => builders
  | i :: is, v :: vs => updateAt (builders.set i v) is vs

namespace repack

/-- An arrow schema field (`arrow2::datatypes::Field`), as inferred from the
source file metadata in `repack.rs`. -/
structure Field where
  name : String
  data_type : DataType
  nullable : Bool
deriving DecidableEq, Repr

/-- `OutField` from `repack.rs`. -/
structure OutField where
  name : String
  data_type : DataType
  nullable : Bool
  encoding : Encoding
deriving DecidableEq, Repr

/-- `Split` from `repack.rs`: declared output fields plus the caller-supplied
transform, which receives the loaded input column and the mutable views over
the output columns (in the order `get_many` yields them) and returns their
new contents. -/
structure Split where
  output : List OutField
  func : Builder → List Builder → Except Err (List Builder)

/-- `Action` from `repack.rs`. -/
inductive Action where
  | ErrorOut
  | Drop
  | Copy
  | Split (s : Split)

/-- `Op` from `repack.rs`. -/
structure Op where
  input : String
  action : Action

/-- `Repack` from `repack.rs`. -/
structure Repack where
  ops : List Op

/-- `find_field` from `repack.rs`, over the inferred input schema. -/
def find_field (schema : List Field) (name : String) : Option (Nat × Field) :=
  schema.enum.find? (fun q => q.2.name == name)

/-- `LoopDecision` from `repack.rs`. -/
inductive LoopDecision where
  | Include
  | Skip
  | Break
deriving DecidableEq, Repr

/-- One row group of the external source: its row count and its columns,
each a finished array addressed by field name. -/
structure RowGroup where
  num_rows : Nat
  columns : List (String × Builder)

/-- The external source file: inferred schema plus row groups (the result of
`read_metadata` and `infer_schema`). -/
structure SourceFile where
  schema : List Field
  row_groups : List RowGroup

/-- Observable events of a transform run, in order: the output writer (and
with it the sink pipeline) being created, an input column having been loaded
and deserialized, and a batch being submitted to the writer. -/
inductive Ev where
  | sinkCreated
  | columnLoaded (name : String)
  | batchSubmitted
deriving DecidableEq, Repr

/-- The per-Op arm of the `out_schema` flat map in `transform`:
`Drop` and `ErrorOut` contribute no output field, `Copy` contributes a field
copied from the input schema (failing when the input is missing), `Split`
contributes its declared output list. -/
def opOutFields (schema : List Field) (op : Op) : Except Err (List OutField) :=
  match op.action with
  | .Drop | .ErrorOut => .ok []
  | .Copy =>
      match find_field schema op.input with
      | none => .error (.fieldMissing op.input)
      | some (_, x) =>
          .ok [{ name := x.name, data_type := x.data_type, nullable := x.nullable,
                 encoding := Encoding.Plain }]
  | .Split split => .ok split.output

/-- The `out_schema` derivation in `transform`: flat map every Op, collecting
into a result that fails at the first failing Op. -/
def deriveOutSchema (schema : List Field) : List Op → Except Err (List OutField)
  | [] => .ok []
  | op :: rest => do
      let a ← opOutFields schema op
      let b ← deriveOutSchema schema rest
      pure (a ++ b)

/-- The `table_schema` derivation in `transform`: each output field becomes a
`TableField` via `Kind::from_arrow`, failing on the first unsupported
external type. -/
def toTableSchema : List OutField → Except Err (List TableField)
  | [] => .ok []
  | v :: rest => do
      let kind ← Kind.from_arrow v.data_type
      let more ← toTableSchema rest
      pure ({ name := v.name, kind := kind, nullable := false,
              encoding := Encoding.Plain } :: more)

/-- `read_columns` plus deserialization for one named column of a row group;
`none` when the row group holds no column of that name (the code would then
index an empty deserializer vector and panic). -/
def lookupColumn (rg : RowGroup) (name : String) : Option Builder :=
  (rg.columns.find? (fun q => q.1 == name)).map (fun q => q.2)

/-- The `Copy` dispatch in `transform`: a downcast chain over the output
builder (utf8, i64, i32, bool, f64), each arm downcasting the input array to
the identical concrete type (`expect` with message input=output, a panic when
the input disagrees) and extending the output row by row; any other output
builder kind fails with the copy-unsupported bail. -/
def copyInto (out : Builder) (arr : Builder) (dt : DataType) (name : String) :
    Option (Except Err Builder) :=
  match out with
  | .utf8B _ _ _ =>
      match arr with
      | .utf8B av aoff avals =>
          some (.ok ((applyValidity av (utf8Slices aoff avals)).foldl
            Builder.pushStrRow out))
      | _ => none
  | .primB .i64 _ _ =>
      match arr with
      | .primB .i64 av avals =>
          some (.ok ((applyValidity av avals).foldl Builder.pushPrimRow out))
      | _ => none
  | .primB .i32 _ _ =>
      match arr with
      | .primB .i32 av avals =>
          some (.ok ((applyValidity av avals).foldl Builder.pushPrimRow out))
      | _ => none
  | .boolB _ _ =>
      match arr with
      | .boolB av avals =>
          some (.ok ((applyValidity av avals).foldl Builder.pushBoolRow out))
      | _ => none
  | .primB .f64 _ _ =>
      match arr with
      | .primB .f64 av avals =>
          some (.ok ((applyValidity av avals).foldl Builder.pushPrimRow out))
      | _ => none
  | _ => some (.error (.copyUnsupported dt name))

/-- One Op of the per-row-group loop in `transform`: look up the input field,
load its column (emitting the load event), then run the action. -/
def processOp (src : SourceFile) (rg : RowGroup) (p : Packer) (op : Op) :
    List Ev × Option (Except Err Packer) :=
  match find_field src.schema op.input with
  | none => ([], some (.error (.fieldMissing op.input)))
  | some (_, field_meta) =>
      match lookupColumn rg op.input with
      | none => ([], none)
      | some arr =>
          let loaded := [Ev.columnLoaded field_meta.name]
          match op.action with
          | .ErrorOut => (loaded, some (.error (.userAbort field_meta.name)))
          | .Drop => (loaded, none)
          | .Copy =>
              match p.find_field op.input with
              | none => (loaded, none)
              | some (output, _) =>
                  if h : output < p.table.builders.length then
                    match copyInto (p.table.builders.get ⟨output, h⟩) arr
                        field_meta.data_type field_meta.name with
                    | none => (loaded, none)
                    | some (.error e) => (loaded, some (.error e))
                    | some (.ok b2) =>
                        (loaded, some (.ok { p with
                          table := { p.table with
                                       builders := p.table.builders.set output b2 } }))
                  else (loaded, none)
          | .Split s =>
              let found := s.output.map (fun f => p.find_field f.name)
              if found.all Option.isSome then
                let idxs := found.filterMap (fun o => o.map (fun q => q.1))
                let views := p.table.get_many idxs
                match s.func arr views with
                | .error e => (loaded, some (.error e))
                | .ok newViews =>
                    (loaded, some (.ok { p with
                      table := { p.table with
                                   builders :=
                                     updateAt p.table.builders
                                       (selectedIndices p.table.builders.length idxs)
                                       newViews } }))
              else (loaded, none)

/-- Run the declared Ops in order over one row group, accumulating load
events and stopping at the first error or panic. -/
def processOps (src : SourceFile) (rg : RowGroup) :
    Packer → List Op → List Ev × Option (Except Err Packer)
  | p, [] => ([], some (.ok p))
  | p, op :: rest =>
      match processOp src rg p op with
      | (tr, some (.ok p2)) =>
          let (tr2, r) := processOps src rg p2 rest
          (tr ++ tr2, r)
      | (tr, some (.error e)) => (tr, some (.error e))
      | (tr, none) => (tr, none)

/-- One included row group: all Ops, then `finish_bulk_push`, then
`consider_flushing` (emitting a submit event when it flushes a batch). -/
def processRG (src : SourceFile) (ops : List Op) (rg : RowGroup) (p : Packer) :
    List Ev × Option (Except Err Packer) :=
  match processOps src rg p ops with
  | (tr, some (.ok p2)) =>
      match p2.table.finish_bulk_push with
      | none => (tr, none)
      | some (.error e) => (tr, some (.error e))
      | some (.ok t2) =>
          match Packer.consider_flushing { p2 with table := t2 } with
          | none => (tr, none)
          | some (.error e) => (tr, some (.error e))
          | some (.ok (p4, some _)) => (tr ++ [Ev.batchSubmitted], some (.ok p4))
          | some (.ok (p4, none)) => (tr, some (.ok p4))
  | other => other

/-- The row-group loop of `transform`: ask the filter, skip, stop, or process
each row group in arrival order. -/
def processRGs (src : SourceFile) (ops : List Op) (rgf : Nat → LoopDecision) :
    Nat → List RowGroup → Packer → List Ev × Option (Except Err Packer)
  | _, [], p => ([], some (.ok p))
  | i, rg :: rest, p =>
      match rgf i with
      | .Skip => processRGs src ops rgf (i + 1) rest p
      | .Break => ([], some (.ok p))
      | .Include =>
          match processRG src ops rg p with
          | (tr, some (.ok p2)) =>
              let (tr2, r) := processRGs src ops rgf (i + 1) rest p2
              (tr ++ tr2, r)
          | other => other

/-- `transform` from `repack.rs`: derive the output schema and the table
schema (both before any writer exists), create the Packer (which constructs
the Writer over the output sink, the `sinkCreated` event), run the row-group
loop, and finish the packer (a final flush that may submit one last batch,
then the writer join).  Returns the event trace and the outcome. -/
def transform (src : SourceFile) (repack : Repack) (rgf : Nat → LoopDecision) :
    List Ev × Option (Except Err Packer) :=
  match deriveOutSchema src.schema repack.ops with
  | .error e => ([], some (.error e))
  | .ok out_schema =>
      match toTableSchema out_schema with
      | .error e => ([], some (.error e))
      | .ok table_schema =>
          match processRGs src repack.ops rgf 0 src.row_groups
              (Packer.new table_schema) with
          | (tr, some (.ok p)) =>
              match p.finish with
              | none => (Ev.sinkCreated :: tr, none)
              | some (.error e) => (Ev.sinkCreated :: tr, some (.error e))
              | some (.ok (p2, some _)) =>
                  (Ev.sinkCreated :: (tr ++ [Ev.batchSubmitted]), some (.ok p2))
              | some (.ok (p2, none)) => (Ev.sinkCreated :: tr, some (.ok p2))
          | (tr, r) => (Ev.sinkCreated :: tr, r)

end repack

/-- Claim C3, counterexample: the Kind-to-external-type mapping does not
round-trip for Uuid.  `Kind::to_arrow` sends Uuid to 16-byte fixed-size
binary, but the match in `Kind::from_arrow` has no fixed-size-binary arm, so
the round trip lands in the catch-all bail instead of `Ok(Uuid)`. -/
theorem c3_uuid_cex :
    Kind.from_arrow (Kind.to_arrow Kind.Uuid) ≠ .ok Kind.Uuid := by decide

/-- Claim C3 (amended): for the seven kinds other than Uuid,
`Kind::from_arrow(k.to_arrow())` returns `Ok(k)`; for Uuid the round trip
fails with `ExternalTypeUnsupported` on the 16-byte fixed-width binary type;
and an external type yields `Ok` exactly when it is one of the seven mapped
types, every other type failing with `ExternalTypeUnsupported`. -/
theorem c3_kind_roundtrip_except_uuid :
    (∀ k : Kind, k ≠ Kind.Uuid → Kind.from_arrow k.to_arrow = .ok k) ∧
    Kind.from_arrow (Kind.to_arrow Kind.Uuid) =
      .error (.externalTypeUnsupported (.FixedSizeBinary 16)) ∧
    (∀ dt : DataType, (∃ k, Kind.from_arrow dt = .ok k) ↔
      (dt = .Boolean ∨ dt = .UInt8 ∨ dt = .Int32 ∨ dt = .Int64 ∨ dt = .Float64 ∨
       dt = .Utf8 ∨ dt = .Timestamp .Second none)) := by
  refine ⟨?_, rfl, ?_⟩
  · intro k hk
    cases k <;> simp_all [Kind.to_arrow, Kind.from_arrow]
  · intro dt
    cases dt with
    | Timestamp unit tz => cases unit <;> cases tz <;> simp [Kind.from_arrow]
    | _ => simp [Kind.from_arrow]

/-- Claim C3, witness: the round trip at Bool. -/
theorem c3_witness : Kind.from_arrow (Kind.to_arrow Kind.Bool) = .ok Kind.Bool :=
  c3_kind_roundtrip_except_uuid.1 Kind.Bool (by decide)

/-- Claim C2 (code bug), evaluated at the failing input: an F64 column with
one pushed value.  `VarArray::mem_usage` misses the `MutablePrimitiveArray`
f64 downcast (and the fixed-size-binary one), so a supported column falls
into the unsupported-type fallback, whose `debug_assert` fires in debug
builds and which returns `rows * 16` in release builds, instead of the
validity-plus-values total (8 bytes here).  For a Uuid column even the typed
`MemUsage` impl omits the validity bitmap: with 8 rows of which one is null
the value buffer is 128 bytes and the bitmap 1 byte, yet both the fallback
and the typed impl report 128, not 129. -/
theorem c2_mem_usage_bug :
    (Table.with_capacity [Kind.F64] 0).push_primitive .f64 0 (some 1) =
      some ({ schema := [Kind.F64], builders := [.primB .f64 none [1]],
              cap := 0, mem_used := 8 }, .ok ()) ∧
    (Builder.primB .f64 none [1]).mem_usage = 16 ∧
    (Builder.primB .f64 none [1]).mem_usage_typed = 8 ∧
    (Builder.primB .f64 none [1]).mem_usage_fallback = true ∧
    (Builder.fsbB 16 (some [true, true, true, true, true, true, true, false])
        (List.replicate 128 0)).mem_usage = 128 ∧
    (Builder.fsbB 16 (some [true, true, true, true, true, true, true, false])
        (List.replicate 128 0)).mem_usage_typed = 128 ∧
    validityMemUsage (some [true, true, true, true, true, true, true, false]) +
        (List.replicate 128 (0 : Nat)).length = 129 ∧
    (Builder.fsbB 16 (some [true, true, true, true, true, true, true, false])
        (List.replicate 128 0)).mem_usage_fallback = true := by decide

/-- Claim C1, counterexample: `push_fsb` with a `None` value performs no type
check at all.  On a Bool column it pushes a null through the type-erased
builder and returns `Ok`, where the claim demands a `TypeMismatch` failure
for every pushed value including `None`. -/
theorem c1_fsb_none_cex :
    (Table.with_capacity [Kind.Bool] 0).push_fsb 0 none =
      some ({ schema := [Kind.Bool], builders := [.boolB (some [false]) [false]],
              cap := 0, mem_used := 0 }, .ok ()) := by decide

/-- Claim C1 (amended): for every Table and in-range column index,
`push_str`, `push_bool` and `push_primitive` fail with `TypeMismatch` for
every pushed value including `None` whenever the concrete builder of that
column disagrees with the call, leaving the table unchanged; `push_fsb`
performs that check only for `Some` values — `push_fsb(col, None)` pushes a
null onto the column builder of any kind and succeeds. -/
theorem c1_push_type_checks (t : Table) (i : Nat) (h : i < t.builders.length) :
    ((t.builders.get ⟨i, h⟩).isUtf8 = false → ∀ val,
        t.push_str i val =
          some (t, .error (.typeMismatch "cannot push a string to this column"))) ∧
    ((t.builders.get ⟨i, h⟩).isBool = false → ∀ val,
        t.push_bool i val =
          some (t, .error (.typeMismatch "cannot push a bool to this column"))) ∧
    (∀ ty, (t.builders.get ⟨i, h⟩).isPrim ty = false → ∀ val,
        t.push_primitive ty i val =
          some (t, .error (.typeMismatch
            ("cannot push an " ++ ty.typeName ++ " to this column")))) ∧
    ((t.builders.get ⟨i, h⟩).isFsb = false → ∀ bytes,
        t.push_fsb i (some bytes) =
          some (t, .error (.typeMismatch "cannot push a uuid to this column"))) ∧
    (t.push_fsb i none =
      some ({ t with builders := t.builders.set i (t.builders.get ⟨i, h⟩).push_null },
        .ok ())) := by
  refine ⟨?_, ?_, ?_, ?_, ?_⟩
  · intro hb val
    rcases hget : t.builders.get ⟨i, h⟩ with ⟨v, w⟩ | ⟨ty2, v, w⟩ | ⟨v, o, w⟩ |
        ⟨s, v, w⟩ <;>
      simp_all [Table.push_str, Builder.isUtf8]
  · intro hb val
    rcases hget : t.builders.get ⟨i, h⟩ with ⟨v, w⟩ | ⟨ty2, v, w⟩ | ⟨v, o, w⟩ |
        ⟨s, v, w⟩ <;>
      simp_all [Table.push_bool, Builder.isBool]
  · intro ty hb val
    rcases hget : t.builders.get ⟨i, h⟩ with ⟨v, w⟩ | ⟨ty2, v, w⟩ | ⟨v, o, w⟩ |
        ⟨s, v, w⟩ <;>
      simp_all [Table.push_primitive, Builder.isPrim]
  · intro hb bytes
    rcases hget : t.builders.get ⟨i, h⟩ with ⟨v, w⟩ | ⟨ty2, v, w⟩ | ⟨v, o, w⟩ |
        ⟨s, v, w⟩ <;>
      simp_all [Table.push_fsb, Builder.isFsb]
  · simp [Table.push_fsb, h]

/-- Claim C1, witness: pushing a `None` string onto a Bool column fails with
the string type-mismatch error. -/
theorem c1_witness :
    (Table.with_capacity [Kind.Bool] 0).push_str 0 none =
      some (Table.with_capacity [Kind.Bool] 0,
        .error (.typeMismatch "cannot push a string to this column")) :=
  (c1_push_type_checks (Table.with_capacity [Kind.Bool] 0) 0 (by decide)).1
    (by decide) none

/-- Claim C5: `take_batch` returns one array per schema field in schema
order (the detached builders themselves), and leaves the table with fresh
builders at zero rows, zero memory estimate, the same schema and the
original capacity hint. -/
theorem c5_take_batch (t : Table) (h : t.builders.length = t.schema.length) :
    t.take_batch.1.length = t.schema.length ∧
    t.take_batch.1 = t.builders ∧
    (∀ b ∈ t.take_batch.2.builders, b.len = 0) ∧
    t.take_batch.2.mem_used = 0 ∧
    t.take_batch.2.builders = make_builders t.schema t.cap ∧
    t.take_batch.2.schema = t.schema ∧
    t.take_batch.2.cap = t.cap := by
  refine ⟨?_, rfl, ?_, rfl, rfl, rfl, rfl⟩
  · simpa [Table.take_batch] using h
  · intro b hb
    simp [Table.take_batch, make_builders] at hb
    obtain ⟨k, hk, rfl⟩ := hb
    cases k <;> rfl

/-- Claim C5, witness: a one-column table with one pushed value. -/
theorem c5_witness :
    (⟨[Kind.I64], [Builder.primB .i64 none [5]], 7, 8⟩ : Table).take_batch.2.mem_used
      = 0 :=
  (c5_take_batch ⟨[Kind.I64], [Builder.primB .i64 none [5]], 7, 8⟩ (by decide)).2.2.2.1

/-- Claim C9: `rows`, `check_consistent` and `finish_bulk_push` index column
0 unconditionally.  For a table whose builder count matches its schema, all
three are total when the schema has at least one field, and all three panic
(index out of bounds, modelled as `none`) when the schema is empty — none of
them returns a typed error in that case. -/
theorem c9_zero_column_totality (t : Table)
    (hlen : t.builders.length = t.schema.length) :
    (t.schema ≠ [] →
      t.rows.isSome = true ∧ t.check_consistent.isSome = true ∧
        t.finish_bulk_push.isSome = true) ∧
    (t.schema = [] →
      t.rows = none ∧ t.check_consistent = none ∧ t.finish_bulk_push = none) := by
  constructor
  · intro hs
    have hb : t.builders ≠ [] := by
      intro h0
      apply hs
      rw [h0] at hlen
      exact List.eq_nil_of_length_eq_zero hlen.symm
    rcases hb2 : t.builders with _ | ⟨b0, rest⟩
    · exact absurd hb2 hb
    · refine ⟨?_, ?_, ?_⟩
      · simp [Table.rows, hb2]
      · simp [Table.check_consistent, hb2]
      · simp only [Table.finish_bulk_push, Table.check_consistent, hb2]
        rcases h2 : checkCols b0.len 1 rest with e | u <;> simp [h2]
  · intro hs
    have hb : t.builders = [] := by
      rw [hs] at hlen
      exact List.eq_nil_of_length_eq_zero (by simpa using hlen)
    refine ⟨?_, ?_, ?_⟩ <;>
      simp [Table.rows, Table.check_consistent, Table.finish_bulk_push, hb]

/-- Claim C9, witness: the empty-schema table panics in all three, and a
one-column table is total. -/
theorem c9_witness :
    (Table.with_capacity [] 0).rows = none ∧
    (Table.with_capacity [] 0).check_consistent = none ∧
    (Table.with_capacity [] 0).finish_bulk_push = none :=
  (c9_zero_column_totality (Table.with_capacity [] 0) (by decide)).2 rfl

/-- Claim C4: with a consistent table, `consider_flushing` is a no-op while
the memory estimate is at most 512 MiB and the row count is at most 100000;
once the estimate exceeds 512 MiB (rows positive), or the row count exceeds
100000, the call performs exactly one flush: it submits the current builders
as one batch and resets the table to fresh builders at zero estimate. -/
theorem c4_consider_flushing (p : Packer) (r : Nat)
    (hc : p.table.check_consistent = some (.ok ()))
    (hr : p.table.rows = some r) :
    (p.table.mem_estimate ≤ 512 * 1024 * 1024 ∧ r ≤ 100000 →
      p.consider_flushing = some (.ok (p, none))) ∧
    (512 * 1024 * 1024 < p.table.mem_estimate ∧ 0 < r →
      p.consider_flushing = some (.ok
        ({ p with table := { schema := p.table.schema,
                             builders := make_builders p.table.schema p.table.cap,
                             cap := p.table.cap, mem_used := 0 } },
          some p.table.builders))) ∧
    (100000 < r →
      p.consider_flushing = some (.ok
        ({ p with table := { schema := p.table.schema,
                             builders := make_builders p.table.schema p.table.cap,
                             cap := p.table.cap, mem_used := 0 } },
          some p.table.builders))) := by
  refine ⟨?_, ?_, ?_⟩
  · rintro ⟨h1, h2⟩
    have hno : ¬ (512 * 1024 * 1024 < p.table.mem_estimate ∨ 100000 < r) := by
      push_neg
      exact ⟨h1, h2⟩
    simp [Packer.consider_flushing, hc, hr, hno]
  · rintro ⟨h1, h2⟩
    have hyes : 512 * 1024 * 1024 < p.table.mem_estimate ∨ 100000 < r := .inl h1
    have hr0 : ¬ (r = 0) := by omega
    simp [Packer.consider_flushing, hc, hr, hyes, Packer.flush, hr0,
      Table.finish_bulk_push, Table.take_batch]
  · intro h1
    have hyes : 512 * 1024 * 1024 < p.table.mem_estimate ∨ 100000 < r := .inr h1
    have hr0 : ¬ (r = 0) := by omega
    simp [Packer.consider_flushing, hc, hr, hyes, Packer.flush, hr0,
      Table.finish_bulk_push, Table.take_batch]

/-- Claim C4, witness: a fresh one-column packer below both thresholds is
left untouched. -/
theorem c4_witness :
    (Packer.new [TableField.new "a" Kind.Bool false]).consider_flushing =
      some (.ok (Packer.new [TableField.new "a" Kind.Bool false], none)) :=
  (c4_consider_flushing (Packer.new [TableField.new "a" Kind.Bool false]) 0
    (by decide) (by decide)).1 ⟨by decide, by decide⟩

/-- Claim C6: `flush` on a table with zero rows submits nothing and changes
no state, and a packer that receives zero pushes before `finish` never
submits a batch. -/
theorem c6_no_empty_batch (p : Packer) (schema : List TableField)
    (hz : p.table.rows = some 0) :
    p.flush = some (.ok (p, none)) ∧
    (schema ≠ [] →
      (Packer.new schema).finish = some (.ok (Packer.new schema, none))) := by
  constructor
  · simp [Packer.flush, hz]
  · intro hs
    rcases schema with _ | ⟨f, fs⟩
    · exact absurd rfl hs
    · have hr : (Packer.new (f :: fs)).table.rows = some 0 := by
        have h0 : (f.kind.array_with_capacity 0).len = 0 := by
          rcases f with ⟨n, k, nl, e⟩
          cases k <;> rfl
        simp [Packer.new, Table.with_capacity, make_builders, Table.rows, h0]
      simp [Packer.finish, Packer.flush, hr]

/-- Claim C6, witness: the fresh one-column packer finishes without ever
submitting a batch. -/
theorem c6_witness :
    (Packer.new [TableField.new "a" Kind.I64 false]).finish =
      some (.ok (Packer.new [TableField.new "a" Kind.I64 false], none)) :=
  (c6_no_empty_batch (Packer.new [TableField.new "a" Kind.I64 false])
    [TableField.new "a" Kind.I64 false] (by decide)).2 (by decide)

/-- Claim C8 (writer modelled from the spec, the multi-sink Writer being
absent from the sources): `new` spawns one encoder task per sink and sizes
the shared bounded channel to the number of sinks; with 2 sinks, two
submissions fill the channel, a third submission cannot complete (the
producer blocks) until a task drains a slot, after which submission is
possible again. -/
theorem c8_writer_backpressure :
    (∀ numSinks : Nat, (WriterState.new numSinks).numTasks = numSinks ∧
        (WriterState.new numSinks).capacity = numSinks) ∧
    (WriterState.new 2).submit_batch = some ⟨2, 2, 1⟩ ∧
    (⟨2, 2, 1⟩ : WriterState).submit_batch = some ⟨2, 2, 2⟩ ∧
    (⟨2, 2, 2⟩ : WriterState).canSubmit = false ∧
    (⟨2, 2, 2⟩ : WriterState).submit_batch = none ∧
    (⟨2, 2, 2⟩ : WriterState).consume = some ⟨2, 2, 1⟩ ∧
    (⟨2, 2, 1⟩ : WriterState).canSubmit = true := by
  exact ⟨fun numSinks => ⟨rfl, rfl⟩, by decide, by decide, by decide, by decide,
    by decide, by decide⟩

/-- A field found by name carries that name. -/
theorem repack.find_field_name {schema : List repack.Field} {name : String}
    {i : Nat} {f : repack.Field}
    (h : repack.find_field schema name = some (i, f)) : f.name = name := by
  have h2 := List.find?_some h
  simpa using h2

/-- Every event emitted by a single Op is a column load. -/
theorem repack.processOp_events (src : repack.SourceFile) (rg : repack.RowGroup)
    (p : Packer) (op : repack.Op) :
    ∀ e ∈ (repack.processOp src rg p op).1, ∃ n, e = repack.Ev.columnLoaded n := by
  intro e he
  unfold repack.processOp at he
  repeat' split at he
  all_goals try simp_all
  all_goals (split at he <;> (try split at he) <;> simp_all)

/-- Unfolding equation for the Op loop on a cons cell, phrased with
projections. -/
theorem repack.processOps_cons (src : repack.SourceFile) (rg : repack.RowGroup)
    (p : Packer) (op : repack.Op) (l : List repack.Op) :
    repack.processOps src rg p (op :: l) =
      (match repack.processOp src rg p op with
       | (tr, some (.ok p2)) =>
           (tr ++ (repack.processOps src rg p2 l).1,
             (repack.processOps src rg p2 l).2)
       | (tr, some (.error e)) => (tr, some (.error e))
       | (tr, none) => (tr, none)) := by
  simp only [repack.processOps]

/-- Every event emitted by the Op loop is a column load (batch submissions
happen only after the loop, in `processRG`). -/
theorem repack.processOps_events (src : repack.SourceFile) (rg : repack.RowGroup) :
    ∀ (ops : List repack.Op) (p : Packer),
      ∀ e ∈ (repack.processOps src rg p ops).1, ∃ n, e = repack.Ev.columnLoaded n := by
  intro ops
  induction ops with
  | nil => intro p e he; simp [repack.processOps] at he
  | cons op rest ih =>
      intro p e he
      rw [repack.processOps_cons] at he
      rcases hop : repack.processOp src rg p op with ⟨tr0, r0⟩
      rw [hop] at he
      have hop_ev : ∀ x ∈ tr0, ∃ n, x = repack.Ev.columnLoaded n := by
        intro x hx
        exact repack.processOp_events src rg p op x (by rw [hop]; simpa using hx)
      rcases r0 with _ | e0 | p2
      · exact hop_ev e (by simpa using he)
      · exact hop_ev e (by simpa using he)
      · simp only [List.mem_append] at he
        rcases he with he | he
        · exact hop_ev e (by simpa using he)
        · exact ih p2 e (by simpa using he)

/-- Running the Op loop over a concatenation: when the prefix succeeds, its
events come first and the suffix continues from the prefix final state. -/
theorem repack.processOps_append (src : repack.SourceFile) (rg : repack.RowGroup)
    (l1 l2 : List repack.Op) :
    ∀ (p : Packer) (tr : List repack.Ev) (p1 : Packer),
      repack.processOps src rg p l1 = (tr, some (.ok p1)) →
      repack.processOps src rg p (l1 ++ l2) =
        (tr ++ (repack.processOps src rg p1 l2).1,
          (repack.processOps src rg p1 l2).2) := by
  induction l1 with
  | nil =>
      intro p tr p1 h
      simp [repack.processOps] at h
      obtain ⟨rfl, rfl⟩ := h
      simp
  | cons op rest ih =>
      intro p tr p1 h
      rw [repack.processOps_cons] at h
      rcases hop : repack.processOp src rg p op with ⟨tr0, r0⟩
      rw [hop] at h
      rcases r0 with _ | e0 | p2
      · simp at h
      · simp at h
      · simp only [] at h
        rcases hrest : repack.processOps src rg p2 rest with ⟨tr2, r2⟩
        rw [hrest] at h
        simp at h
        obtain ⟨rfl, hr2⟩ := h
        rw [List.cons_append, repack.processOps_cons, hop]
        simp [ih p2 tr2 p1 (by rw [hrest, hr2]), List.append_assoc]

/-- Claim C7, counterexample: a transform whose only Op is ErrorOut over a
one-row-group source containing column x does fail with `UserAbort` after
loading the column, but the output writer over the sink has already been
created before the row-group loop (the `sinkCreated` event precedes the
failure in the trace), contradicting the claim that the failure occurs
before any output sink is created. -/
theorem c7_error_out_cex :
    repack.transform
      ⟨[⟨"x", .Int64, false⟩], [⟨1, [("x", Builder.primB .i64 none [7])]⟩]⟩
      ⟨[{ input := "x", action := .ErrorOut }]⟩ (fun _ => .Include) =
      ([repack.Ev.sinkCreated, repack.Ev.columnLoaded "x"],
        some (.error (.userAbort "x"))) := by
  rfl

/-- The row-group loop ignores a prefix of row groups the filter skips,
continuing with the remaining row groups at the shifted index. -/
theorem repack.processRGs_skip_prefix (src : repack.SourceFile)
    (ops : List repack.Op) (rgf : Nat → repack.LoopDecision) :
    ∀ (rgs0 : List repack.RowGroup) (i : Nat) (rgs : List repack.RowGroup)
      (p : Packer),
      (∀ j, j < rgs0.length → rgf (i + j) = .Skip) →
      repack.processRGs src ops rgf i (rgs0 ++ rgs) p =
        repack.processRGs src ops rgf (i + rgs0.length) rgs p := by
  intro rgs0
  induction rgs0 with
  | nil => intro i rgs p h; simp
  | cons rg0 rest ih =>
      intro i rgs p h
      have h0 : rgf i = .Skip := by simpa using h 0 (by simp)
      rw [List.cons_append]
      simp only [repack.processRGs, h0]
      have hidx : i + (rg0 :: rest).length = i + 1 + rest.length := by
        simp [List.length_cons]
        omega
      rw [hidx]
      refine ih (i + 1) rgs p ?_
      intro k hk
      have hk2 := h (k + 1) (by simp [List.length_cons]; omega)
      have heq : i + (k + 1) = i + 1 + k := by omega
      rw [heq] at hk2
      exact hk2

/-- Claim C7 (amended): for every transform run whose Ops include
Op(input x, ErrorOut) over a source containing column x with at least one
included row group (the filter may skip any prefix of row groups before the
first included one), and whose earlier Ops process that row group without
error, the run fails with `UserAbort` once the named input column is loaded
and never submits a batch; the output writer over the sink is created before
the row-group loop, so the failure occurs after sink creation (the trace
starts with the sink-creation event), not before it. -/
theorem c7_error_out_after_sink (src : repack.SourceFile)
    (pre rest : List repack.Op) (x : String) (rgf : Nat → repack.LoopDecision)
    (rgs0 : List repack.RowGroup) (rg0 : repack.RowGroup)
    (rgs : List repack.RowGroup)
    (outs : List repack.OutField) (tfs : List TableField) (j : Nat)
    (fm : repack.Field) (arr : Builder) (p1 : Packer) (tr : List repack.Ev)
    (hout : repack.deriveOutSchema src.schema
        (pre ++ { input := x, action := .ErrorOut } :: rest) = .ok outs)
    (htfs : repack.toTableSchema outs = .ok tfs)
    (hrgs : src.row_groups = rgs0 ++ rg0 :: rgs)
    (hskip : ∀ i, i < rgs0.length → rgf i = .Skip)
    (hinc : rgf rgs0.length = .Include)
    (hfind : repack.find_field src.schema x = some (j, fm))
    (hload : repack.lookupColumn rg0 x = some arr)
    (hpre : repack.processOps src rg0 (Packer.new tfs) pre = (tr, some (.ok p1))) :
    repack.transform src ⟨pre ++ { input := x, action := .ErrorOut } :: rest⟩ rgf =
      (repack.Ev.sinkCreated :: (tr ++ [repack.Ev.columnLoaded x]),
        some (.error (.userAbort x))) ∧
    repack.Ev.batchSubmitted ∉
      (repack.transform src ⟨pre ++ { input := x, action := .ErrorOut } :: rest⟩
        rgf).1 ∧
    (repack.transform src ⟨pre ++ { input := x, action := .ErrorOut } :: rest⟩
        rgf).1.head? = some repack.Ev.sinkCreated := by
  have hxname : fm.name = x := repack.find_field_name hfind
  have hop : repack.processOp src rg0 p1 { input := x, action := .ErrorOut } =
      ([repack.Ev.columnLoaded x], some (.error (.userAbort x))) := by
    simp [repack.processOp, hfind, hload, hxname]
  have hops : repack.processOps src rg0 (Packer.new tfs)
      (pre ++ { input := x, action := .ErrorOut } :: rest) =
      (tr ++ [repack.Ev.columnLoaded x], some (.error (.userAbort x))) := by
    rw [repack.processOps_append src rg0 pre _ (Packer.new tfs) tr p1 hpre,
      repack.processOps_cons, hop]
  have hrg : repack.processRG src
      (pre ++ { input := x, action := .ErrorOut } :: rest) rg0 (Packer.new tfs) =
      (tr ++ [repack.Ev.columnLoaded x], some (.error (.userAbort x))) := by
    simp [repack.processRG, hops]
  have hloop : repack.processRGs src
      (pre ++ { input := x, action := .ErrorOut } :: rest) rgf 0
      (rgs0 ++ rg0 :: rgs) (Packer.new tfs) =
      (tr ++ [repack.Ev.columnLoaded x], some (.error (.userAbort x))) := by
    rw [repack.processRGs_skip_prefix src
      (pre ++ { input := x, action := .ErrorOut } :: rest) rgf rgs0 0
      (rg0 :: rgs) (Packer.new tfs) (fun k hk => by simpa using hskip k hk)]
    rw [Nat.zero_add]
    simp [repack.processRGs, hinc, hrg]
  have hmain : repack.transform src
      ⟨pre ++ { input := x, action := .ErrorOut } :: rest⟩ rgf =
      (repack.Ev.sinkCreated :: (tr ++ [repack.Ev.columnLoaded x]),
        some (.error (.userAbort x))) := by
    simp [repack.transform, hout, htfs, hrgs, hloop]
  refine ⟨hmain, ?_, ?_⟩
  · rw [hmain]
    simp only [List.mem_cons, List.mem_append, List.mem_singleton]
    rintro (h1 | h2 | h3)
    · exact absurd h1 (by simp)
    · obtain ⟨n, hn⟩ := repack.processOps_events src rg0 pre (Packer.new tfs)
        repack.Ev.batchSubmitted (by rw [hpre]; simpa using h2)
      exact absurd hn (by simp)
    · exact absurd h3 (by simp)
  · rw [hmain]
    rfl

/-- Claim C7, witness: the amended theorem at a concrete one-Op,
two-row-group run whose filter skips the first row group and includes the
second. -/
theorem c7_witness :
    repack.transform
      ⟨[⟨"x", .Int64, false⟩],
        [⟨1, [("x", Builder.primB .i64 none [1])]⟩,
         ⟨1, [("x", Builder.primB .i64 none [7])]⟩]⟩
      ⟨[] ++ { input := "x", action := .ErrorOut } :: []⟩
      (fun i => if i == 0 then .Skip else .Include) =
      (repack.Ev.sinkCreated :: ([] ++ [repack.Ev.columnLoaded "x"]),
        some (.error (.userAbort "x"))) :=
  (c7_error_out_after_sink
    ⟨[⟨"x", .Int64, false⟩],
      [⟨1, [("x", Builder.primB .i64 none [1])]⟩,
       ⟨1, [("x", Builder.primB .i64 none [7])]⟩]⟩
    [] [] "x" (fun i => if i == 0 then .Skip else .Include)
    [⟨1, [("x", Builder.primB .i64 none [1])]⟩]
    ⟨1, [("x", Builder.primB .i64 none [7])]⟩ []
    [] [] 0 ⟨"x", .Int64, false⟩ (Builder.primB .i64 none [7]) (Packer.new []) []
    rfl rfl rfl
    (by intro i hi
        have h0 : i = 0 := by simpa using hi
        subst h0
        rfl)
    rfl rfl rfl rfl).1

/-- Filtering an enumeration by requested index and keeping the payloads is
the same as reading the table at the in-range requested indices in ascending
order. -/
theorem enum_filter_map_selected (l : List Builder) (items : List Nat) :
    (l.enum.filter (fun p => items.contains p.1)).map (fun p => p.2) =
      (selectedIndices l.length items).map (fun i => l.getD i default) := by
  induction l using List.reverseRecOn with
  | nil => simp [selectedIndices]
  | append_singleton l a ih =>
      rw [List.enum_append, List.filter_append, List.map_append, ih]
      have hrange : List.range (l.length + 1) = List.range l.length ++ [l.length] := by
        simpa using List.range_succ l.length
      have hsel : selectedIndices (l ++ [a]).length items =
          selectedIndices l.length items ++
            [l.length].filter (fun i => items.contains i) := by
        simp only [selectedIndices, List.length_append, List.length_singleton]
        rw [hrange, List.filter_append]
      rw [hsel, List.map_append]
      congr 1
      · apply List.map_congr_left
        intro i hi
        have hmem := (List.mem_filter.1 hi).1
        have hlt : i < l.length := List.mem_range.1 hmem
        exact (List.getD_append l [a] default i hlt).symm
      · by_cases hm : l.length ∈ items
        · simp [hm, List.getD_append_right]
        · simp [hm]

/-- `get_many` depends only on membership in the requested index list. -/
theorem get_many_congr (t : Table) (items1 items2 : List Nat)
    (h : ∀ y, y ∈ items1 ↔ y ∈ items2) :
    t.get_many items1 = t.get_many items2 := by
  have hco : ∀ y, items1.contains y = items2.contains y := by
    intro y
    rw [Bool.eq_iff_iff]
    constructor <;> intro hy
    · have hy2 : y ∈ items1 := by simpa using hy
      simpa using (h y).1 hy2
    · have hy2 : y ∈ items2 := by simpa using hy
      simpa using (h y).2 hy2
  simp only [Table.get_many]
  congr 1
  apply List.filter_congr
  intro p hp
  exact hco p.1

/-- Inversion of the out-schema derivation over a concatenation of Ops: a
successful derivation splits into successful derivations of the parts, and
the output fields concatenate in Op order. -/
theorem repack.deriveOutSchema_append_inv (schema : List repack.Field)
    (l1 l2 : List repack.Op) :
    ∀ out : List repack.OutField,
      repack.deriveOutSchema schema (l1 ++ l2) = .ok out →
      ∃ a b, repack.deriveOutSchema schema l1 = .ok a ∧
        repack.deriveOutSchema schema l2 = .ok b ∧ out = a ++ b := by
  induction l1 with
  | nil =>
      intro out h
      exact ⟨[], out, rfl, h, rfl⟩
  | cons op rest ih =>
      intro out h
      rw [List.cons_append] at h
      simp only [repack.deriveOutSchema] at h
      rcases hop : repack.opOutFields schema op with e | a0 <;> rw [hop] at h
      · simp only [Bind.bind, Except.bind] at h
        exact Except.noConfusion h
      · rcases hrec : repack.deriveOutSchema schema (rest ++ l2) with e | c <;>
          rw [hrec] at h
        · simp only [Bind.bind, Except.bind, Functor.map, Except.map] at h
          exact Except.noConfusion h
        · simp only [Bind.bind, Except.bind, Functor.map, Except.map, pure,
            Except.pure, Except.ok.injEq] at h
          obtain ⟨a, b, ha, hb, rfl⟩ := ih c hrec
          refine ⟨a0 ++ a, b, ?_, hb, ?_⟩
          · simp [repack.deriveOutSchema, hop, ha, Bind.bind, Except.bind,
              Functor.map, Except.map, pure, Except.pure]
          · rw [← h, List.append_assoc]

/-- Claim C10: `get_many` returns the selected builders in ascending
schema-index order — the positions read are the in-range requested indices
sorted ascending without duplicates — independent of the order and
multiplicity of the requested list (a duplicated index yields a single
view); and schema derivation assigns a Split Op output fields at
consecutive ascending indices (starting at the length of what the preceding
Ops contributed), which is why that schema-index order coincides with the
declared output order. -/
theorem c10_get_many_schema_order (t : Table) (items : List Nat)
    (src_schema : List repack.Field) (pre post : List repack.Op) (x : String)
    (s : repack.Split) (l a : List repack.OutField)
    (hall : repack.deriveOutSchema src_schema
        (pre ++ { input := x, action := .Split s } :: post) = .ok l)
    (hpre : repack.deriveOutSchema src_schema pre = .ok a) :
    (t.get_many items =
      (selectedIndices t.builders.length items).map
        (fun i => t.builders.getD i default)) ∧
    (selectedIndices t.builders.length items).Pairwise (· < ·) ∧
    (∀ j, j ∈ selectedIndices t.builders.length items ↔
        j < t.builders.length ∧ j ∈ items) ∧
    (∀ items2, (∀ y, y ∈ items ↔ y ∈ items2) →
        t.get_many items = t.get_many items2) ∧
    (∀ i l2, t.get_many (i :: i :: l2) = t.get_many (i :: l2)) ∧
    (∀ m, m < s.output.length → l[a.length + m]? = s.output[m]?) := by
  refine ⟨?_, ?_, ?_, ?_, ?_, ?_⟩
  · exact enum_filter_map_selected t.builders items
  · exact (List.pairwise_lt_range _).filter _
  · intro j
    simp [selectedIndices, List.mem_filter, List.mem_range, and_comm]
  · intro items2 hsame
    exact get_many_congr t items items2 hsame
  · intro i l2
    apply get_many_congr
    intro y
    simp [List.mem_cons]
  · intro m hm
    obtain ⟨a2, c, ha2, hc, rfl⟩ :=
      repack.deriveOutSchema_append_inv src_schema pre _ l hall
    rw [hpre] at ha2
    injection ha2 with ha3
    subst ha3
    rcases hpost : repack.deriveOutSchema src_schema post with e | b
    · simp [repack.deriveOutSchema, repack.opOutFields, hpost, Bind.bind,
        Except.bind, Functor.map, Except.map, pure, Except.pure] at hc
    · simp [repack.deriveOutSchema, repack.opOutFields, hpost, Bind.bind,
        Except.bind, Functor.map, Except.map, pure, Except.pure] at hc
      subst hc
      rw [List.getElem?_append_right (Nat.le_add_right a.length m)]
      simp only [Nat.add_sub_cancel_left]
      exact List.getElem?_append_left hm

/-- Claim C10, witness: a two-column table queried with indices out of order
and duplicated. -/
theorem c10_witness :
    (⟨[Kind.Bool, Kind.I64], [Builder.boolB none [], Builder.primB .i64 none []],
        0, 0⟩ : Table).get_many [1, 0, 1] =
      (selectedIndices
          (⟨[Kind.Bool, Kind.I64],
              [Builder.boolB none [], Builder.primB .i64 none []],
              0, 0⟩ : Table).builders.length [1, 0, 1]).map
        (fun i =>
          (⟨[Kind.Bool, Kind.I64],
              [Builder.boolB none [], Builder.primB .i64 none []],
              0, 0⟩ : Table).builders.getD i default) :=
  (c10_get_many_schema_order
    ⟨[Kind.Bool, Kind.I64], [Builder.boolB none [], Builder.primB .i64 none []],
      0, 0⟩
    [1, 0, 1] [] [] [] "x"
    ⟨[⟨"y", .Int64, false, .Plain⟩], fun _ v => .ok v⟩
    [⟨"y", .Int64, false, .Plain⟩] [] rfl rfl).1
